import Mathlib

/-!
# Verification of `gitdup` (duplicate a git working directory)

Shallow embedding of the core of `gitdup` (`src/index.ts`): the
duplication-and-reconciliation workflow.  Filesystem and process effects are
abstracted into an `Env` record of pure observation functions; the workflow
itself is translated statement by statement from the TypeScript source into a
writer/except monad that records the emitted progress events and the external
actions (directory creation, tree copy, spawned commands) in order.

Absolute paths are modelled as lists of components (`List String`), so that
`path.join dir name = dir ++ [name]`, `path.dirname p = p.dropLast`,
`path.basename p = last of p`.  `path.sep` is `"/"` (POSIX).
-/

namespace Gitdup

/-- Absolute canonical paths, as lists of components. -/
abbrev Path := List String

/-- Models `path.basename` on a component list (last component, `""` for the root). -/
def basename (p : Path) : String := p.getLastD ""

/-- Length of the longest common prefix of two component lists. -/
def commonPrefixLen : List String → List String → Nat
  | a :: as, b :: bs => if a = b then commonPrefixLen as bs + 1 else 0
  | _, _ => 0

/-- Models `path.relative(from, to)` on absolute canonical component lists:
strip the common prefix, climb with `".."` for each remaining component of
`from`, then descend into the rest of `to`. -/
def relComps (f t : Path) : List String :=
  let k := commonPrefixLen f t
  List.replicate (f.length - k) ".." ++ t.drop k

/-- The string `path.relative(from, to)` returns (components joined by the
separator; the empty string when the paths coincide). -/
def relString (f t : Path) : String :=
  String.intercalate "/" (relComps f t)

/-- Models `String.startsWith`, expressed by character-list prefixing (the core
library's byte-level implementation computes the same predicate). -/
def strStartsWith (s pre : String) : Bool := pre.toList.isPrefixOf s.toList

/-- Models `path.isAbsolute` on the POSIX separator convention. -/
def isAbsoluteStr (s : String) : Bool := strStartsWith s "/"

/-- Translation of `isSubPath(parent, child)` from the source: the relative path is nonempty,
does not start with `".."` and is not absolute. -/
def isSubPath (parent child : Path) : Bool :=
  let rel := relString parent child
  rel ≠ "" && !strStartsWith rel ".." && !isAbsoluteStr rel

/-- Translation of `pathHasNodeModules(p)`: `p.split(path.sep).includes('node_modules')`.
On a component list the split is the list itself. -/
def pathHasNodeModules (p : Path) : Bool := p.contains "node_modules"

/-- The relative path `path.join('.git', 'index')` as a string. -/
def gitIndexRel : String := ".git/index"

/-- The timestamp fallback suffix:
`new Date().toISOString().replace(/[-:T]/g, '').slice(0, 12)`.
Modelled by filtering out the characters `-`, `:`, `T` and taking the first
twelve remaining characters. -/
def stampOf (iso : String) : String :=
  ((iso.toList.filter fun c => c ≠ '-' ∧ c ≠ ':' ∧ c ≠ 'T').take 12).asString

/-- No character of `s` is one of the separators (`-`, `:`, `T`) that the
timestamp normalization strips; all-digit fields satisfy this. -/
def noSepChars (s : String) : Prop := ∀ c ∈ s.toList, c ≠ '-' ∧ c ≠ ':' ∧ c ≠ 'T'

instance (s : String) : Decidable (noSepChars s) := by
  unfold noSepChars
  infer_instance

/-! ## Environment

Pure abstraction of the filesystem and of external-process results observed
during one run.  Each field corresponds to one primitive the source calls. -/

/-- Observations of the world during one `gitdup` run. -/
structure Env where
  /-- `process.cwd()`. -/
  cwd : Path
  /-- `pathExists(p)` (does `fs.stat` succeed). -/
  fsExists : Path → Bool
  /-- `fs.lstat(p).isDirectory()`. -/
  isDirectory : Path → Bool
  /-- `fs.readdir(p)`. -/
  readdir : Path → List String
  /-- All entries of the source tree, as paths relative to `cwd`
  (`[]` is the root itself); the domain `fs.cp` walks. -/
  treeEntries : List Path
  /-- The `packageManager` field parsed from `<dir>/package.json`:
  `some s` when the read and the JSON parse succeed and the field is present,
  `none` otherwise (the `catch` in `detectPackageManager` swallows errors). -/
  pkgManagerField : Path → Option String
  /-- Whether `<cmd> --version` exits with code 0 (the `has` probe in
  `pmCommandFor`). -/
  cmdAvailable : String → Bool
  /-- Exit code of `run(cmd, args, cwd)` once the child closes. -/
  runExit : String → List String → Path → Int
  /-- Captured `err || out` of a failing `run(cmd, args, cwd)`. -/
  runOutput : String → List String → Path → String
  /-- Result of `runCapture('git', ['remote'], dir)`: captured stdout on exit
  code 0, the captured error text otherwise. -/
  gitRemote : Path → Except String String
  /-- `new Date().toISOString()` at the time `defaultDest` falls back. -/
  nowIso : String

/-- Translation of the probing loop of `defaultDest`: `while (i < 1000)` starting at `i = 1`, so
the indices `1, …, 999` are tried in order; `fuel` is `1000 - i`. -/
def ddSearch (env : Env) (parent : Path) (base : String) : Nat → Nat → Option Path
  | _, 0 => none
  | i, fuel + 1 =>
    let candidate := parent ++ [s!"{base}-dup-{i}"]
    if !env.fsExists candidate then some candidate
    else ddSearch env parent base (i + 1) fuel

/-- Translation of `defaultDest(cwd)`: probe `<base>-dup`, then `<base>-dup-1` … `-dup-999`,
returning the first candidate that does not exist; otherwise fall back to the
timestamp-suffixed sibling. -/
def defaultDest (env : Env) (cwd : Path) : Path :=
  let parent := cwd.dropLast
  let base := basename cwd
  let candidate := parent ++ [s!"{base}-dup"]
  if !env.fsExists candidate then candidate
  else
    match ddSearch env parent base 1 999 with
    | some c => c
    | none => parent ++ [s!"{base}-dup-{stampOf env.nowIso}"]

/-! ## Progress events, external actions and the run monad -/

/-- The `GitDupProgressEvent` union, translated constructor by constructor. -/
inductive Event where
  | copyStart (source dest : Path)
  | copyDone (dest : Path)
  | copySkipNodeModules (source : Path)
  | gitResetStart (dest : Path)
  | gitResetDone (dest : Path)
  | gitCleanStart (dest : Path)
  | gitCleanDone (dest : Path)
  | gitBranchStart (dest : Path) (branch : String)
  | gitBranchDone (dest : Path) (branch : String)
  | gitPrStart (dest : Path) (pr : Nat) (remote : String)
  | gitPrDone (dest : Path) (pr : Nat) (remote : String)
  | nodeInstallStart (dest : Path) (manager : String)
  | nodeInstallDone (dest : Path) (manager : String)
  | nodeInstallSkip (dest : Path) (reason : String)
  | done (dest : Path)
  deriving DecidableEq, Repr

/-- Externally visible side effects of a run, in order. -/
inductive Action where
  /-- `fs.mkdir(dest, { recursive: true })`. -/
  | mkdir (dest : Path)
  /-- `fs.cp(cwd, dest, …)` with the copy filter; `isNode` records which
  filter was active. -/
  | cp (source dest : Path) (isNode : Bool)
  /-- A spawned child process (`run` / `runCapture`). -/
  | spawn (cmd : String) (args : List String) (cwd : Path)
  deriving DecidableEq, Repr

/-- One element of the observable trace. -/
inductive Item where
  | event (e : Event)
  | action (a : Action)
  deriving DecidableEq, Repr

abbrev Trace := List Item

/-- Writer-of-trace plus exceptions: the value is either the returned result
or the thrown error message, and the trace lists everything emitted or
performed before settling. -/
def M (α : Type) : Type := Trace × Except String α

namespace M

def pure {α : Type} (a : α) : M α := ([], .ok a)

def bind {α β : Type} (x : M α) (f : α → M β) : M β :=
  match x with
  | (t, .error e) => (t, .error e)
  | (t, .ok a) => (t ++ (f a).1, (f a).2)

/-- Emit a progress event (`options.onProgress?.(…)`). -/
def emit (e : Event) : M Unit := ([.event e], .ok ())

/-- Record an external action. -/
def act (a : Action) : M Unit := ([.action a], .ok ())

/-- Models `throw new Error(msg)`. -/
def throw {α : Type} (msg : String) : M α := ([], .error msg)

end M

instance : Monad M where
  pure := M.pure
  bind := M.bind

@[simp] theorem M.bind_def {α β : Type} (x : M α) (f : α → M β) :
    x >>= f = M.bind x f := rfl

@[simp] theorem M.pure_def {α : Type} (a : α) :
    (Pure.pure a : M α) = ([], .ok a) := rfl

@[simp] theorem M.bind_ok {α β : Type} (t : Trace) (a : α) (f : α → M β) :
    M.bind (t, .ok a) f = (t ++ (f a).1, (f a).2) := rfl

@[simp] theorem M.bind_error {α β : Type} (t : Trace) (e : String) (f : α → M β) :
    M.bind (t, .error e) f = (t, .error e) := rfl

/-- Render a path in an error message. -/
def pathStr (p : Path) : String := "/" ++ String.intercalate "/" p

/-- Translation of `run(cmd, args, cwd)`: spawn the child, resolve on exit code 0, reject
with the captured output otherwise. -/
def runCmd (env : Env) (cmd : String) (args : List String) (dir : Path) : M Unit :=
  M.bind (M.act (.spawn cmd args dir)) fun _ =>
    if env.runExit cmd args dir = 0 then M.pure ()
    else
      M.throw ("Command failed: " ++ cmd ++ " " ++ String.intercalate " " args
        ++ "\n" ++ env.runOutput cmd args dir)

/-- A spawned command whose failure is swallowed by an enclosing
`try … catch`. -/
def swallowRun (cmd : String) (args : List String) (dir : Path) : M Unit :=
  M.act (.spawn cmd args dir)

/-! ## Package-manager detection -/

/-- The command/arguments pair `pmCommandFor` produces. -/
structure PMChoice where
  cmd : String
  args : List String
  deriving DecidableEq, Repr

/-- Translation of `pmCommandFor(pm, dir)`, case by case (the `has` probe is
`Env.cmdAvailable`). -/
def pmCommandFor (env : Env) (pm : String) (dir : Path) : Option PMChoice :=
  if pm = "bun" then
    if env.cmdAvailable "bun" then some ⟨"bun", ["install"]⟩ else none
  else if pm = "pnpm" then
    if env.cmdAvailable "pnpm" then
      let frozen := env.fsExists (dir ++ ["pnpm-lock.yaml"])
      some ⟨"pnpm", ["install"] ++ (if frozen then ["--frozen-lockfile"] else [])⟩
    else none
  else if pm = "yarn" then
    if env.cmdAvailable "yarn" then some ⟨"yarn", ["install"]⟩ else none
  else
    if env.cmdAvailable "npm" then
      let useCi := env.fsExists (dir ++ ["package-lock.json"])
      some ⟨"npm", [if useCi then "ci" else "install"]⟩
    else none

/-- The lock-file candidate table of `detectPackageManager`, in source order. -/
def lockCandidates : List (String × String) :=
  [("bun.lockb", "bun"), ("pnpm-lock.yaml", "pnpm"),
   ("yarn.lock", "yarn"), ("package-lock.json", "npm")]

/-- The lock-file probing loop of `detectPackageManager`, falling back to
`pmCommandFor('npm')` when no candidate matches. -/
def detectByLock (env : Env) (dir : Path) : List (String × String) → Option PMChoice
  | [] => pmCommandFor env "npm" dir
  | (check, pm) :: rest =>
    if env.fsExists (dir ++ [check]) then
      match pmCommandFor env pm dir with
      | some c => some c
      | none => detectByLock env dir rest
    else detectByLock env dir rest

/-- Models `pkg.packageManager.split('@')[0]`: the prefix before the first `@`. -/
def pmFieldName (s : String) : String :=
  (s.toList.takeWhile fun c => !(c == '@')).asString

/-- Translation of `detectPackageManager(dir)`: prefer the manifest's `packageManager` field
(only when truthy, i.e. present and nonempty), then the lock-file probes,
then the npm fallback. -/
def detectPackageManager (env : Env) (dir : Path) : Option PMChoice :=
  let fromField : Option PMChoice :=
    match env.pkgManagerField dir with
    | some s =>
      if s ≠ "" then pmCommandFor env (pmFieldName s) dir
      else none
    | none => none
  match fromField with
  | some c => some c
  | none => detectByLock env dir lockCandidates

/-! ## The workflow stages of `gitdup` -/

/-- The `GitDupOptions` record (paths already resolved to absolute component lists;
`path.resolve` on an absolute path is the identity). -/
structure GitDupOptions where
  dest : Option Path := none
  branch : Option String := none
  pr : Option Nat := none
  remote : Option String := none
  clean : Bool := false
  verbose : Bool := false
  install : Option Bool := none

/-- The `GitDupResult` record. -/
structure GitDupResult where
  source : Path
  dest : Path
  checkedOut : Option String
  deriving DecidableEq, Repr

/-- Translation of `ensureGitRepo(dir)`. -/
def ensureGitRepo (env : Env) (dir : Path) : M Unit :=
  if !env.fsExists (dir ++ [".git"]) then
    M.throw ("Not a git repository: " ++ pathStr dir)
  else M.pure ()

/-- The destination safety checks and preparation (source lines 507–526):
same-directory and nesting rejections, then the must-not-exist-or-be-empty
rule; a missing destination is created. -/
def validateDest (env : Env) (cwd dest : Path) : M Unit :=
  if dest = cwd then
    M.throw "Destination is the same as the current directory."
  else if isSubPath cwd dest then
    M.throw "Destination must not be inside the current directory."
  else if env.fsExists dest then
    if !env.isDirectory dest then
      M.throw ("Destination exists and is not a directory: " ++ pathStr dest)
    else if (env.readdir dest).length > 0 then
      M.throw ("Destination directory must be empty: " ++ pathStr dest)
    else M.pure ()
  else
    M.act (.mkdir dest)

/-- The per-entry filter passed to `fs.cp`: always skip `.git/index`
(compared against the source-relative path); for Node projects skip any
absolute path containing a `node_modules` component. -/
def copyFilter (cwd : Path) (isNode : Bool) (src : Path) : Bool :=
  let rel := relString cwd src
  if rel = gitIndexRel then false
  else if isNode then !pathHasNodeModules src
  else true

/-- The set of source-tree entries the filtered `fs.cp` copies. -/
def copiedEntries (env : Env) (isNode : Bool) : List Path :=
  env.treeEntries.filter fun r => copyFilter env.cwd isNode (env.cwd ++ r)

/-- The copy block (source lines 528–548): the skip notice for Node
projects, then `copy:start`, the filtered `fs.cp`, and `copy:done`. -/
def copyStage (cwd dest : Path) (isNode : Bool) : M Unit := do
  if isNode then M.emit (.copySkipNodeModules cwd)
  M.emit (.copyStart cwd dest)
  M.act (.cp cwd dest isNode)
  M.emit (.copyDone dest)

/-- Runs `git reset --hard`, then optionally `git clean -fd` (source lines
550–559). -/
def resetCleanStage (env : Env) (o : GitDupOptions) (dest : Path) : M Unit := do
  M.emit (.gitResetStart dest)
  runCmd env "git" ["reset", "--hard"] dest
  M.emit (.gitResetDone dest)
  if o.clean then
    M.emit (.gitCleanStart dest)
    runCmd env "git" ["clean", "-fd"] dest
    M.emit (.gitCleanDone dest)

/-- The `try { git remote; fetch --all --prune } catch {}` block of the
branch path: enumeration failure is swallowed, and the fetch runs only when
at least one remote is configured, its own failure also swallowed. -/
def branchFetchBlock (env : Env) (dest : Path) : M Unit :=
  M.bind (M.act (.spawn "git" ["remote"] dest)) fun _ =>
    match env.gitRemote dest with
    | .error _ => M.pure ()
    | .ok out =>
      let remotes := (out.trim.splitOn "\n").filter (· ≠ "")
      if remotes.length > 0 then swallowRun "git" ["fetch", "--all", "--prune"] dest
      else M.pure ()

/-- Models `options.remote || 'origin'` (an empty or missing remote is falsy). -/
def remoteOf (o : GitDupOptions) : String :=
  match o.remote with
  | some r => if r = "" then "origin" else r
  | none => "origin"

/-- The synthesized local reference name `` `pr-${options.pr}` ``. -/
def prRef (n : Nat) : String := s!"pr-{n}"

/-- The PR arm (`else if (typeof options.pr === 'number')`): fetch
`pull/<n>/head` into `pr-<n>` from the requested remote (default
`origin`), then check it out. -/
def prCheckout (env : Env) (o : GitDupOptions) (dest : Path) : M (Option String) :=
  match o.pr with
  | some n =>
    let remote := remoteOf o
    let localRef := prRef n
    do
      M.emit (.gitPrStart dest n remote)
      runCmd env "git" ["fetch", remote, s!"pull/{n}/head:{localRef}"] dest
      runCmd env "git" ["checkout", localRef] dest
      M.emit (.gitPrDone dest n remote)
      M.pure (some localRef)
  | none => M.pure none

/-- The branch arm of the reconciler: best-effort fetch block, then the
fatal `git checkout <branch>`. -/
def branchCheckout (env : Env) (dest : Path) (b : String) : M (Option String) := do
  M.emit (.gitBranchStart dest b)
  branchFetchBlock env dest
  runCmd env "git" ["checkout", b] dest
  M.emit (.gitBranchDone dest b)
  M.pure (some b)

/-- Source lines 561–611: `if (options.branch) {…} else if (typeof
options.pr === 'number') {…}`; a supplied empty branch string is falsy in
the source condition, so it falls through to the PR arm. -/
def checkoutStage (env : Env) (o : GitDupOptions) (dest : Path) : M (Option String) :=
  match o.branch with
  | some b => if b ≠ "" then branchCheckout env dest b else prCheckout env o dest
  | none => prCheckout env o dest

/-- The dependency-install block (source lines 613–643). -/
def installStage (env : Env) (o : GitDupOptions) (dest : Path) (isNode : Bool) : M Unit :=
  if isNode then
    if o.install = some false then
      M.emit (.nodeInstallSkip dest "install disabled by option")
    else
      match detectPackageManager env dest with
      | none => M.emit (.nodeInstallSkip dest "no package manager available")
      | some pm => do
        M.emit (.nodeInstallStart dest pm.cmd)
        runCmd env pm.cmd pm.args dest
        M.emit (.nodeInstallDone dest pm.cmd)
  else M.pure ()

/-- Models `path.resolve(options.dest || (await defaultDest(cwd)))` — the requested
destination when supplied (already absolute), the probed default otherwise. -/
def resolvedDest (env : Env) (o : GitDupOptions) : Path :=
  match o.dest with
  | some d => d
  | none => defaultDest env env.cwd

/-- Translation of `gitdup(options)`: the whole sequential workflow. -/
def gitdup (env : Env) (o : GitDupOptions) : M GitDupResult := do
  let cwd := env.cwd
  ensureGitRepo env cwd
  let dest := resolvedDest env o
  validateDest env cwd dest
  let isNode := env.fsExists (cwd ++ ["package.json"])
  copyStage cwd dest isNode
  resetCleanStage env o dest
  let checkedOut ← checkoutStage env o dest
  installStage env o dest isNode
  M.emit (.done dest)
  M.pure { source := cwd, dest := dest, checkedOut := checkedOut }

/-! ## Settling behaviour of `run` (promise resolution model)

`run` registers handlers for the child's `close` event (and, in quiet mode,
the `data` events of the two output streams) — and for nothing else.  A
child that cannot be spawned at all delivers the `error` event instead of
`close`; `run` has no handler for it, so neither `resolve` nor `reject` is
ever invoked on that path (the unhandled `error` emission escapes the
promise entirely). -/

/-- The terminal signal a spawned child delivers. -/
inductive ChildSignal where
  | close (code : Int)
  | spawnFailure (msg : String)
  deriving DecidableEq

/-- How the promise returned by `run(cmd, args, …)` settles, as a function
of the child's terminal signal: `some` of the settlement when a registered
handler fires, `none` when no handler is registered for the signal. -/
def runSettles (env : Env) (cmd : String) (args : List String) (dir : Path) :
    ChildSignal → Option (Except String Unit)
  | .close code =>
    if code = 0 then some (.ok ())
    else some (.error ("Command failed: " ++ cmd ++ " " ++ String.intercalate " " args
      ++ "\n" ++ env.runOutput cmd args dir))
  | .spawnFailure _ => none

/-! ## Helper predicates and lemmas -/

/-- Does a trace item report the node_modules skip notice? -/
def isCopySkip : Item → Bool
  | .event (.copySkipNodeModules _) => true
  | _ => false

/-- Is an argument vector a PR fetch (`fetch <remote> pull/<n>/head:<ref>`)? -/
def prFetchArgs : List String → Bool
  | ["fetch", _, s] => strStartsWith s "pull/"
  | _ => false

/-- Does a trace item belong to the pull-request checkout (a PR progress
event, a PR-refspec fetch, or nothing else)? -/
def isPrItem : Item → Bool
  | .event (.gitPrStart _ _ _) => true
  | .event (.gitPrDone _ _ _) => true
  | .action (.spawn _ args _) => prFetchArgs args
  | _ => false

theorem pathHasNodeModules_append (a b : Path) :
    pathHasNodeModules (a ++ b) = (pathHasNodeModules a || pathHasNodeModules b) := by
  induction a with
  | nil => simp [pathHasNodeModules]
  | cons x xs ih =>
    simp only [pathHasNodeModules, List.cons_append, List.contains_cons] at *
    rw [ih]
    cases ("node_modules" == x) <;> simp

/-! ## Concrete environments used as counterexamples and witnesses -/

/-- A base environment; the counterexample/witness environments below
override individual observations. -/
def envBase : Env where
  cwd := ["work", "proj"]
  fsExists := fun _ => true
  isDirectory := fun _ => true
  readdir := fun _ => []
  treeEntries := []
  pkgManagerField := fun _ => none
  cmdAvailable := fun _ => false
  runExit := fun _ _ _ => 0
  runOutput := fun _ _ _ => ""
  gitRemote := fun _ => .error "fatal: not a git repository"
  nowIso := "2026-10-12T08:34:56.000Z"

/-- Everything occupied; clock reads 08:34:56. -/
def envStampA : Env := envBase

/-- Everything occupied; clock reads 08:34:57 — one second later. -/
def envStampB : Env := { envBase with nowIso := "2026-10-12T08:34:57.999Z" }

/-- A duplicate containing `yarn.lock`, with only yarn on the PATH. -/
def envYarnLock : Env :=
  { envBase with
    fsExists := fun p => p = ["work", "proj-dup", "yarn.lock"]
    cmdAvailable := fun c => c = "yarn" }

/-- A duplicate containing `bun.lockb`, with only bun on the PATH. -/
def envBunLock : Env :=
  { envBase with
    fsExists := fun p => p = ["work", "proj-dup", "bun.lockb"]
    cmdAvailable := fun c => c = "bun" }

/-- No lock file at all; the manifest declares `"packageManager": "yarn@4.1.0"`. -/
def envYarnNoLock : Env :=
  { envBase with
    fsExists := fun _ => false
    pkgManagerField := fun _ => some "yarn@4.1.0"
    cmdAvailable := fun c => c = "yarn" }

/-- A package-based source whose own absolute path contains `node_modules`. -/
def envInsideNM : Env :=
  { envBase with
    cwd := ["work", "node_modules", "proj"]
    treeEntries := [[], ["src"], ["src", "main.ts"]] }

/-- A package-based source at `/work/proj`; everything exists except the
requested destination `/work/proj-dup`; no package manager on the PATH. -/
def envCopyW : Env :=
  { envBase with fsExists := fun p => p ≠ ["work", "proj-dup"] }

/-- A valid source repo at `/r/app` whose requested destination `/r/dest`
already exists as a directory holding one entry. -/
def envNonEmptyDest : Env :=
  { envBase with
    cwd := ["r", "app"]
    readdir := fun p => if p = ["r", "dest"] then ["stale.txt"] else [] }

/-! ## Claims -/

/-- C1: the spec's contract — every invocation of `run` settles the promise
as success or failure — is what the code intends, but `run` registers a
handler only for the child's `close` event.  A child whose executable cannot
be spawned at all delivers the `error` event instead; no handler is
registered for it, so the promise neither resolves nor rejects (first
conjunct: every `close` settles it; second conjunct: a spawn failure settles
nothing).  The code therefore contradicts the spec's "never neither" on the
spawn-failure path. -/
theorem run_settles_only_on_close :
    (∀ (env : Env) (cmd : String) (args : List String) (dir : Path) (code : Int),
      (runSettles env cmd args dir (.close code)).isSome = true) ∧
    (∀ (env : Env) (cmd : String) (args : List String) (dir : Path) (msg : String),
      runSettles env cmd args dir (.spawnFailure msg) = none) := by
  constructor
  · intro env cmd args dir code
    unfold runSettles
    by_cases h : code = 0 <;> simp [h]
  · intro env cmd args dir msg
    rfl

/-- C6: the copy filter excludes an entry exactly when its source-relative
path is `.git/index`, or the project is package-based and the entry's
(absolute) path contains a `node_modules` component; everything else —
dotfiles and the `.git` metadata directory included — passes the filter.
(The extra conjuncts instantiate the rule: `.git/HEAD` and `.env` are
copied, `node_modules` survives in a non-package project, `.git/index` is
always dropped, and nested `node_modules` is dropped in a package project.) -/
theorem copyFilter_excludes_iff :
    (∀ (cwd : Path) (isNode : Bool) (src : Path),
      copyFilter cwd isNode src = false ↔
        (relString cwd src = gitIndexRel ∨
          (isNode = true ∧ pathHasNodeModules src = true))) ∧
    copyFilter ["r"] true ["r", ".git", "HEAD"] = true ∧
    copyFilter ["r"] true ["r", ".env"] = true ∧
    copyFilter ["r"] false ["r", "node_modules", "pkg"] = true ∧
    copyFilter ["r"] false ["r", ".git", "index"] = false ∧
    copyFilter ["r"] true ["r", "a", "node_modules", "b"] = false := by
  refine ⟨fun cwd isNode src => ?_, by decide, by decide, by decide, by decide, by decide⟩
  unfold copyFilter
  by_cases h : relString cwd src = gitIndexRel
  · simp [h]
  · cases isNode <;> simp [h]

/-- C10: the `node_modules` test is applied to the entry's full absolute
path, not its source-relative path: when the source directory's own absolute
path contains a `node_modules` component and the project is package-based,
the filter rejects every entry — the source root included — and the filtered
copy transfers nothing. -/
theorem copyFilter_absolute_path_rejects_all (env : Env)
    (h : pathHasNodeModules env.cwd = true) :
    (∀ rel : Path, copyFilter env.cwd true (env.cwd ++ rel) = false) ∧
    copyFilter env.cwd true env.cwd = false ∧
    copiedEntries env true = [] := by
  have hall : ∀ rel : Path, copyFilter env.cwd true (env.cwd ++ rel) = false := by
    intro rel
    unfold copyFilter
    by_cases hrel : relString env.cwd (env.cwd ++ rel) = gitIndexRel
    · simp [hrel]
    · simp [hrel, pathHasNodeModules_append, h]
  refine ⟨hall, ?_, ?_⟩
  · have := hall []
    simpa using this
  · unfold copiedEntries
    rw [List.filter_eq_nil_iff]
    intro r _
    simp [hall r]

/-- C10 witness: a package-based source living at
`/work/node_modules/proj` is filtered to nothing. -/
theorem copyFilter_absolute_path_rejects_all_witness :
    pathHasNodeModules envInsideNM.cwd = true ∧
    copiedEntries envInsideNM true = [] :=
  ⟨by decide, (copyFilter_absolute_path_rejects_all envInsideNM (by decide)).2.2⟩

/-- C2 counterexample: with `yarn.lock` present (and yarn the detected
manager) the chosen install invocation is plain `yarn install` — the same
general install mode chosen when no lock file exists at all (third
conjunct) — and with `bun.lockb` present it is plain `bun install`.  So for
yarn and bun the claimed frozen/deterministic mode is not selected. -/
theorem pm_lockfile_not_frozen_counterexample :
    detectPackageManager envYarnLock ["work", "proj-dup"] =
      some ⟨"yarn", ["install"]⟩ ∧
    detectPackageManager envBunLock ["work", "proj-dup"] =
      some ⟨"bun", ["install"]⟩ ∧
    detectPackageManager envYarnNoLock ["work", "proj-dup"] =
      some ⟨"yarn", ["install"]⟩ := by
  refine ⟨?_, ?_, ?_⟩ <;> decide

/-- C2 amended: only pnpm and npm get a frozen/deterministic mode when
their lock file is present (`pnpm install --frozen-lockfile`, `npm ci`);
bun and yarn always get their general `install` subcommand, lock file or
not. -/
theorem pmCommandFor_characterization (env : Env) (dir : Path) :
    pmCommandFor env "pnpm" dir =
      (if env.cmdAvailable "pnpm" then
        some ⟨"pnpm",
          if env.fsExists (dir ++ ["pnpm-lock.yaml"]) then
            ["install", "--frozen-lockfile"] else ["install"]⟩
       else none) ∧
    pmCommandFor env "npm" dir =
      (if env.cmdAvailable "npm" then
        some ⟨"npm",
          if env.fsExists (dir ++ ["package-lock.json"]) then ["ci"] else ["install"]⟩
       else none) ∧
    pmCommandFor env "bun" dir =
      (if env.cmdAvailable "bun" then some ⟨"bun", ["install"]⟩ else none) ∧
    pmCommandFor env "yarn" dir =
      (if env.cmdAvailable "yarn" then some ⟨"yarn", ["install"]⟩ else none) := by
  refine ⟨?_, ?_, ?_, ?_⟩
  · cases h1 : env.cmdAvailable "pnpm" <;>
      cases h2 : env.fsExists (dir ++ ["pnpm-lock.yaml"]) <;>
      simp [pmCommandFor, h1, h2]
  · cases h1 : env.cmdAvailable "npm" <;>
      cases h2 : env.fsExists (dir ++ ["package-lock.json"]) <;>
      simp [pmCommandFor, h1, h2]
  · cases h1 : env.cmdAvailable "bun" <;> simp [pmCommandFor, h1]
  · cases h1 : env.cmdAvailable "yarn" <;> simp [pmCommandFor, h1]

theorem pmCommandFor_none_of_unavailable (env : Env)
    (h : ∀ c, env.cmdAvailable c = false) (pm : String) (dir : Path) :
    pmCommandFor env pm dir = none := by
  unfold pmCommandFor
  simp [h]

theorem detectByLock_none_of_unavailable (env : Env)
    (h : ∀ c, env.cmdAvailable c = false) (dir : Path) :
    ∀ cands, detectByLock env dir cands = none := by
  intro cands
  induction cands with
  | nil => exact pmCommandFor_none_of_unavailable env h _ dir
  | cons c rest ih =>
    obtain ⟨check, pm⟩ := c
    unfold detectByLock
    rw [pmCommandFor_none_of_unavailable env h pm dir]
    simp [ih]

theorem detectPackageManager_none_of_unavailable (env : Env) (dir : Path)
    (h : ∀ c, env.cmdAvailable c = false) :
    detectPackageManager env dir = none := by
  unfold detectPackageManager
  cases hf : env.pkgManagerField dir with
  | none => simpa using detectByLock_none_of_unavailable env h dir lockCandidates
  | some s =>
    by_cases hs : s = "" <;>
      simp [hs, pmCommandFor_none_of_unavailable env h,
        detectByLock_none_of_unavailable env h dir lockCandidates]

/-- C8: in a package-based duplicate, explicitly disabling install emits the
skip event with exactly the reason `"install disabled by option"`, and when
no candidate package-manager executable is invocable the skip event carries
exactly `"no package manager available"`; in both cases the install stage's
whole trace is that single event — no install command is spawned. -/
theorem install_skip_reasons (env : Env) (o : GitDupOptions) (dest : Path) :
    (o.install = some false →
      installStage env o dest true =
        ([.event (.nodeInstallSkip dest "install disabled by option")], .ok ())) ∧
    (o.install ≠ some false → (∀ c, env.cmdAvailable c = false) →
      installStage env o dest true =
        ([.event (.nodeInstallSkip dest "no package manager available")], .ok ())) := by
  constructor
  · intro h
    simp [installStage, h, M.emit]
  · intro h havail
    simp [installStage, h, M.emit, detectPackageManager_none_of_unavailable env dest havail]

/-- C8 witness: both skip paths at a concrete environment with no
package manager on the PATH. -/
theorem install_skip_reasons_witness :
    installStage envBase { install := some false } ["work", "proj-dup"] true =
      ([.event (.nodeInstallSkip ["work", "proj-dup"] "install disabled by option")], .ok ()) ∧
    installStage envBase {} ["work", "proj-dup"] true =
      ([.event (.nodeInstallSkip ["work", "proj-dup"] "no package manager available")], .ok ()) :=
  ⟨(install_skip_reasons envBase { install := some false } ["work", "proj-dup"]).1 rfl,
   (install_skip_reasons envBase {} ["work", "proj-dup"]).2 (by simp) (fun _ => rfl)⟩

/-- C5: destination validation rejects exactly when the destination equals
the source, is nested inside it (by the relative-path containment test —
the last two conjuncts show a sibling sharing a string prefix passes while a
genuinely nested path fails), exists as a non-directory, or exists as a
directory with at least one entry; and whenever the requested destination is
a non-empty directory the whole run rejects with an empty action/event
trace — no filesystem change at all. -/
theorem validateDest_invalid_iff (env : Env) (o : GitDupOptions) (dest : Path)
    (hgit : env.fsExists (env.cwd ++ [".git"]) = true)
    (hdest : o.dest = some dest) :
    ((validateDest env env.cwd dest).2.isOk = false ↔
      (dest = env.cwd ∨ isSubPath env.cwd dest = true ∨
        (env.fsExists dest = true ∧ env.isDirectory dest = false) ∨
        (env.fsExists dest = true ∧ env.isDirectory dest = true ∧
          env.readdir dest ≠ []))) ∧
    ((env.fsExists dest = true ∧ env.isDirectory dest = true ∧
        env.readdir dest ≠ []) →
      (gitdup env o).1 = [] ∧ (gitdup env o).2.isOk = false) ∧
    isSubPath ["r", "app"] ["r", "app-dup"] = false ∧
    isSubPath ["r", "app"] ["r", "app", "sub"] = true := by
  refine ⟨?_, ?_, by decide, by decide⟩
  · by_cases h1 : dest = env.cwd
    · simp [validateDest, h1, M.throw, Except.isOk, Except.toBool]
    · cases h2 : isSubPath env.cwd dest
      · cases h3 : env.fsExists dest
        · simp [validateDest, h1, h2, h3, M.act, Except.isOk, Except.toBool]
        · cases h4 : env.isDirectory dest
          · simp [validateDest, M.throw, h1, h2, h3, h4, Except.isOk, Except.toBool]
          · by_cases h5 : (env.readdir dest).length > 0
            · have hne : env.readdir dest ≠ [] := by
                intro hnil
                rw [hnil] at h5
                simp at h5
              simp [validateDest, M.throw, h1, h2, h3, h4, h5, hne, Except.isOk, Except.toBool]
            · have hnil : env.readdir dest = [] := by
                rcases List.eq_nil_or_concat (env.readdir dest) with h | ⟨l, a, hl⟩
                · exact h
                · exfalso
                  apply h5
                  rw [hl]
                  simp
              simp [validateDest, M.pure, h1, h2, h3, h4, h5, hnil, Except.isOk, Except.toBool]
      · simp [validateDest, M.throw, h1, h2, Except.isOk, Except.toBool]
  · rintro ⟨he, hd, hne⟩
    have hlen : (env.readdir dest).length > 0 := by
      cases hl : env.readdir dest with
      | nil => exact absurd hl hne
      | cons a l => simp
    by_cases h1 : dest = env.cwd
    · simp [gitdup, resolvedDest, hdest, ensureGitRepo, hgit, validateDest, h1,
        M.throw, M.pure, Except.isOk, Except.toBool]
    · cases h2 : isSubPath env.cwd dest
      · simp [gitdup, resolvedDest, hdest, ensureGitRepo, hgit, validateDest,
          h1, h2, he, hd, hlen, M.throw, M.pure, Except.isOk, Except.toBool]
      · simp [gitdup, resolvedDest, hdest, ensureGitRepo, hgit, validateDest,
          h1, h2, M.throw, M.pure, Except.isOk, Except.toBool]

/-- C5 witness: a source at `/r/app` with a requested destination `/r/dest`
that exists and holds one entry: the run rejects and performs no action. -/
theorem validateDest_invalid_iff_witness :
    envNonEmptyDest.fsExists (envNonEmptyDest.cwd ++ [".git"]) = true ∧
    (gitdup envNonEmptyDest { dest := some ["r", "dest"] }).1 = [] ∧
    (gitdup envNonEmptyDest { dest := some ["r", "dest"] }).2.isOk = false :=
  ⟨rfl,
    (validateDest_invalid_iff envNonEmptyDest { dest := some ["r", "dest"] }
      ["r", "dest"] rfl rfl).2.1 (by decide)⟩

theorem ddSearch_eq_find (env : Env) (parent : Path) (base : String) :
    ∀ (fuel i : Nat), ddSearch env parent base i fuel =
      ((List.range' i fuel).map fun j => parent ++ [s!"{base}-dup-{j}"]).find?
        fun c => !env.fsExists c := by
  intro fuel
  induction fuel with
  | zero => intro i; rfl
  | succ n ih =>
    intro i
    rw [List.range'_succ]
    simp only [List.map_cons]
    cases h : env.fsExists (parent ++ [s!"{base}-dup-{i}"]) with
    | false =>
      rw [List.find?_cons_of_pos _ (by simp [h])]
      unfold ddSearch
      simp [h]
    | true =>
      rw [List.find?_cons_of_neg _ (by simp [h])]
      unfold ddSearch
      simp only [h, Bool.not_true, Bool.false_eq_true, if_false]
      simpa using ih (i + 1)

theorem defaultDest_eq_find (env : Env) (cwd : Path) :
    defaultDest env cwd =
      (((cwd.dropLast ++ [s!"{basename cwd}-dup"]) ::
        ((List.range' 1 999).map fun j =>
          cwd.dropLast ++ [s!"{basename cwd}-dup-{j}"])).find?
          fun c => !env.fsExists c).getD
        (cwd.dropLast ++ [s!"{basename cwd}-dup-{stampOf env.nowIso}"]) := by
  cases h : env.fsExists (cwd.dropLast ++ [s!"{basename cwd}-dup"]) with
  | false =>
    rw [List.find?_cons_of_pos _ (by simp [h])]
    unfold defaultDest
    simp [h]
  | true =>
    rw [List.find?_cons_of_neg _ (by simp [h])]
    unfold defaultDest
    simp only [h, Bool.not_true, Bool.false_eq_true, if_false]
    rw [ddSearch_eq_find env cwd.dropLast (basename cwd) 999 1]
    cases hf : ((List.range' 1 999).map fun j =>
        cwd.dropLast ++ [s!"{basename cwd}-dup-{j}"]).find? fun c => !env.fsExists c with
    | none => simp
    | some c => simp

theorem stampOf_parts (y mo d hr mi rest : String)
    (hy : y.length = 4) (hmo : mo.length = 2) (hd : d.length = 2)
    (hh : hr.length = 2) (hmi : mi.length = 2)
    (hy2 : noSepChars y) (hmo2 : noSepChars mo) (hd2 : noSepChars d)
    (hh2 : noSepChars hr) (hmi2 : noSepChars mi) :
    stampOf (y ++ "-" ++ mo ++ "-" ++ d ++ "T" ++ hr ++ ":" ++ mi ++ rest) =
      y ++ mo ++ d ++ hr ++ mi := by
  unfold stampOf
  apply String.ext
  have fy : List.filter (fun c => decide (c ≠ '-' ∧ c ≠ ':' ∧ c ≠ 'T')) y.data = y.data :=
    List.filter_eq_self.mpr (fun c hc => by simpa using hy2 c hc)
  have fmo : List.filter (fun c => decide (c ≠ '-' ∧ c ≠ ':' ∧ c ≠ 'T')) mo.data = mo.data :=
    List.filter_eq_self.mpr (fun c hc => by simpa using hmo2 c hc)
  have fd : List.filter (fun c => decide (c ≠ '-' ∧ c ≠ ':' ∧ c ≠ 'T')) d.data = d.data :=
    List.filter_eq_self.mpr (fun c hc => by simpa using hd2 c hc)
  have fh : List.filter (fun c => decide (c ≠ '-' ∧ c ≠ ':' ∧ c ≠ 'T')) hr.data = hr.data :=
    List.filter_eq_self.mpr (fun c hc => by simpa using hh2 c hc)
  have fmi : List.filter (fun c => decide (c ≠ '-' ∧ c ≠ ':' ∧ c ≠ 'T')) mi.data = mi.data :=
    List.filter_eq_self.mpr (fun c hc => by simpa using hmi2 c hc)
  have fdash : (['-'].filter fun c => decide (c ≠ '-' ∧ c ≠ ':' ∧ c ≠ 'T')) = [] := rfl
  have fcolon : (([':'].filter fun c => decide (c ≠ '-' ∧ c ≠ ':' ∧ c ≠ 'T'))) = [] := rfl
  have ft : ((['T'].filter fun c => decide (c ≠ '-' ∧ c ≠ ':' ∧ c ≠ 'T'))) = [] := rfl
  simp only [String.toList, String.data_append, List.filter_append]
  rw [fy, fmo, fd, fh, fmi]
  rw [fdash, fcolon, ft]
  simp only [List.append_nil, List.nil_append, List.append_assoc]
  rw [show y.data ++ (mo.data ++ (d.data ++ (hr.data ++ (mi.data ++
      List.filter (fun c => decide (c ≠ '-' ∧ c ≠ ':' ∧ c ≠ 'T')) rest.data)))) =
      (y.data ++ mo.data ++ d.data ++ hr.data ++ mi.data) ++
        List.filter (fun c => decide (c ≠ '-' ∧ c ≠ ':' ∧ c ≠ 'T')) rest.data from by
    simp [List.append_assoc]]
  rw [List.take_left' (by
    simp only [List.length_append]
    have ly : y.data.length = 4 := hy
    have lmo : mo.data.length = 2 := hmo
    have ld : d.data.length = 2 := hd
    have lh : hr.data.length = 2 := hh
    have lmi : mi.data.length = 2 := hmi
    omega)]
  simp [List.asString, List.append_assoc]

theorem stampOf_minute_iff (y₁ mo₁ d₁ h₁ mi₁ r₁ y₂ mo₂ d₂ h₂ mi₂ r₂ : String)
    (hy₁ : y₁.length = 4) (hmo₁ : mo₁.length = 2) (hd₁ : d₁.length = 2)
    (hh₁ : h₁.length = 2) (hmi₁ : mi₁.length = 2)
    (hs₁ : noSepChars y₁ ∧ noSepChars mo₁ ∧ noSepChars d₁ ∧ noSepChars h₁ ∧ noSepChars mi₁)
    (hy₂ : y₂.length = 4) (hmo₂ : mo₂.length = 2) (hd₂ : d₂.length = 2)
    (hh₂ : h₂.length = 2) (hmi₂ : mi₂.length = 2)
    (hs₂ : noSepChars y₂ ∧ noSepChars mo₂ ∧ noSepChars d₂ ∧ noSepChars h₂ ∧ noSepChars mi₂) :
    stampOf (y₁ ++ "-" ++ mo₁ ++ "-" ++ d₁ ++ "T" ++ h₁ ++ ":" ++ mi₁ ++ r₁) =
      stampOf (y₂ ++ "-" ++ mo₂ ++ "-" ++ d₂ ++ "T" ++ h₂ ++ ":" ++ mi₂ ++ r₂) ↔
      (y₁ = y₂ ∧ mo₁ = mo₂ ∧ d₁ = d₂ ∧ h₁ = h₂ ∧ mi₁ = mi₂) := by
  obtain ⟨a₁, b₁, c₁, e₁, f₁⟩ := hs₁
  obtain ⟨a₂, b₂, c₂, e₂, f₂⟩ := hs₂
  rw [stampOf_parts y₁ mo₁ d₁ h₁ mi₁ r₁ hy₁ hmo₁ hd₁ hh₁ hmi₁ a₁ b₁ c₁ e₁ f₁,
    stampOf_parts y₂ mo₂ d₂ h₂ mi₂ r₂ hy₂ hmo₂ hd₂ hh₂ hmi₂ a₂ b₂ c₂ e₂ f₂]
  constructor
  · intro heq
    have hdata := congrArg String.data heq
    simp only [String.data_append] at hdata
    have l5 : mi₁.data.length = mi₂.data.length := by
      have g1 : mi₁.data.length = 2 := hmi₁
      have g2 : mi₂.data.length = 2 := hmi₂
      omega
    obtain ⟨h4, hmi⟩ := List.append_inj' hdata l5
    have l4 : h₁.data.length = h₂.data.length := by
      have g1 : h₁.data.length = 2 := hh₁
      have g2 : h₂.data.length = 2 := hh₂
      omega
    obtain ⟨h3, hh⟩ := List.append_inj' h4 l4
    have l3 : d₁.data.length = d₂.data.length := by
      have g1 : d₁.data.length = 2 := hd₁
      have g2 : d₂.data.length = 2 := hd₂
      omega
    obtain ⟨h2', hd⟩ := List.append_inj' h3 l3
    have l2 : mo₁.data.length = mo₂.data.length := by
      have g1 : mo₁.data.length = 2 := hmo₁
      have g2 : mo₂.data.length = 2 := hmo₂
      omega
    obtain ⟨h1', hmo⟩ := List.append_inj' h2' l2
    exact ⟨String.ext h1', String.ext hmo, String.ext hd, String.ext hh, String.ext hmi⟩
  · rintro ⟨rfl, rfl, rfl, rfl, rfl⟩
    rfl

set_option maxRecDepth 10000 in
/-- C3 counterexample: with every sibling candidate occupied, two
invocations one second apart (`…T08:34:56.000Z` vs `…T08:34:57.999Z`)
both fall back to the identical sibling `proj-dup-202610120834` — the
timestamp suffix is truncated before the seconds field, so the fallback
name is not unique at the second granularity. -/
theorem defaultDest_timestamp_not_second_unique :
    envStampA.nowIso ≠ envStampB.nowIso ∧
    (∀ p : Path, envStampA.fsExists p = true) ∧
    (∀ p : Path, envStampB.fsExists p = true) ∧
    defaultDest envStampA ["work", "proj"] = ["work", "proj-dup-202610120834"] ∧
    defaultDest envStampB ["work", "proj"] = ["work", "proj-dup-202610120834"] :=
  ⟨by decide, fun _ => rfl, fun _ => rfl, by decide, by decide⟩

/-- C3 amended: with no destination supplied the resolver probes, in order,
the sibling `<base>-dup`, then `<base>-dup-1` … `<base>-dup-999` (1000
probes in total), and returns the first candidate that does not exist; if
all are occupied it falls back to the sibling `<base>-dup-<stamp>`, where
the stamp is the ISO timestamp with its separators removed, truncated to
twelve characters (`YYYYMMDDHHMM`) — i.e. unique at the minute, not the
second, granularity: the stamp ignores everything past the minute field
(second conjunct) and distinguishes exactly the minute-resolution fields
(third conjunct). -/
theorem defaultDest_probe_order_and_minute_stamp (env : Env) (cwd : Path) :
    (defaultDest env cwd =
      (((cwd.dropLast ++ [s!"{basename cwd}-dup"]) ::
        ((List.range' 1 999).map fun j =>
          cwd.dropLast ++ [s!"{basename cwd}-dup-{j}"])).find?
          fun c => !env.fsExists c).getD
        (cwd.dropLast ++ [s!"{basename cwd}-dup-{stampOf env.nowIso}"])) ∧
    (∀ y mo d hr mi r₁ r₂ : String,
      y.length = 4 → mo.length = 2 → d.length = 2 → hr.length = 2 → mi.length = 2 →
      noSepChars y → noSepChars mo → noSepChars d → noSepChars hr → noSepChars mi →
      stampOf (y ++ "-" ++ mo ++ "-" ++ d ++ "T" ++ hr ++ ":" ++ mi ++ r₁) =
        stampOf (y ++ "-" ++ mo ++ "-" ++ d ++ "T" ++ hr ++ ":" ++ mi ++ r₂)) ∧
    (∀ y₁ mo₁ d₁ h₁ mi₁ r₁ y₂ mo₂ d₂ h₂ mi₂ r₂ : String,
      y₁.length = 4 → mo₁.length = 2 → d₁.length = 2 → h₁.length = 2 → mi₁.length = 2 →
      (noSepChars y₁ ∧ noSepChars mo₁ ∧ noSepChars d₁ ∧ noSepChars h₁ ∧ noSepChars mi₁) →
      y₂.length = 4 → mo₂.length = 2 → d₂.length = 2 → h₂.length = 2 → mi₂.length = 2 →
      (noSepChars y₂ ∧ noSepChars mo₂ ∧ noSepChars d₂ ∧ noSepChars h₂ ∧ noSepChars mi₂) →
      (stampOf (y₁ ++ "-" ++ mo₁ ++ "-" ++ d₁ ++ "T" ++ h₁ ++ ":" ++ mi₁ ++ r₁) =
        stampOf (y₂ ++ "-" ++ mo₂ ++ "-" ++ d₂ ++ "T" ++ h₂ ++ ":" ++ mi₂ ++ r₂) ↔
        (y₁ = y₂ ∧ mo₁ = mo₂ ∧ d₁ = d₂ ∧ h₁ = h₂ ∧ mi₁ = mi₂))) := by
  refine ⟨defaultDest_eq_find env cwd, ?_, ?_⟩
  · intro y mo d hr mi r₁ r₂ h1 h2 h3 h4 h5 s1 s2 s3 s4 s5
    rw [stampOf_parts y mo d hr mi r₁ h1 h2 h3 h4 h5 s1 s2 s3 s4 s5,
      stampOf_parts y mo d hr mi r₂ h1 h2 h3 h4 h5 s1 s2 s3 s4 s5]
  · intro y₁ mo₁ d₁ h₁ mi₁ r₁ y₂ mo₂ d₂ h₂ mi₂ r₂ a1 a2 a3 a4 a5 as b1 b2 b3 b4 b5 bs
    exact stampOf_minute_iff y₁ mo₁ d₁ h₁ mi₁ r₁ y₂ mo₂ d₂ h₂ mi₂ r₂
      a1 a2 a3 a4 a5 as b1 b2 b3 b4 b5 bs

/-! ## Trace-counting machinery for the event-stream claims -/

theorem countP_bind_zero {α β : Type} (p : Item → Bool) (x : M α) (f : α → M β)
    (hx : x.1.countP p = 0) (hf : ∀ a, ((f a).1.countP p) = 0) :
    ((M.bind x f).1.countP p) = 0 := by
  obtain ⟨t, r⟩ := x
  cases r with
  | error e => simpa [M.bind] using hx
  | ok a => simp [M.bind, List.countP_append, hx, hf a]

theorem runCmd_trace (env : Env) (c : String) (a : List String) (d : Path) :
    (runCmd env c a d).1 = [Item.action (.spawn c a d)] := by
  unfold runCmd
  by_cases h : env.runExit c a d = 0 <;> simp [h, M.bind, M.act, M.pure, M.throw]

theorem emit_trace (e : Event) : (M.emit e).1 = [Item.event e] := rfl

theorem copyStage_result (cwd dest : Path) (isNode : Bool) :
    copyStage cwd dest isNode =
      ((if isNode then [Item.event (.copySkipNodeModules cwd)] else []) ++
        [Item.event (.copyStart cwd dest), Item.action (.cp cwd dest isNode),
         Item.event (.copyDone dest)], .ok ()) := by
  cases isNode <;> simp [copyStage, M.bind, M.emit, M.act, M.pure]

theorem resetClean_countP_zero (env : Env) (o : GitDupOptions) (dest : Path)
    (p : Item → Bool)
    (h1 : p (.event (.gitResetStart dest)) = false)
    (h2 : p (.action (.spawn "git" ["reset", "--hard"] dest)) = false)
    (h3 : p (.event (.gitResetDone dest)) = false)
    (h4 : p (.event (.gitCleanStart dest)) = false)
    (h5 : p (.action (.spawn "git" ["clean", "-fd"] dest)) = false)
    (h6 : p (.event (.gitCleanDone dest)) = false) :
    ((resetCleanStage env o dest).1.countP p) = 0 := by
  unfold resetCleanStage
  by_cases e1 : env.runExit "git" ["reset", "--hard"] dest = 0 <;>
    by_cases e2 : o.clean = true <;>
    by_cases e3 : env.runExit "git" ["clean", "-fd"] dest = 0 <;>
    simp [runCmd, e1, e2, e3, M.bind, M.emit, M.act, M.pure, M.throw,
      List.countP_append, List.countP_cons, h1, h2, h3, h4, h5, h6]



theorem branchFetchBlock_countP_zero (env : Env) (dest : Path) (p : Item → Bool)
    (hr : p (.action (.spawn "git" ["remote"] dest)) = false)
    (hf : p (.action (.spawn "git" ["fetch", "--all", "--prune"] dest)) = false) :
    ((branchFetchBlock env dest).1.countP p) = 0 := by
  unfold branchFetchBlock swallowRun
  simp only [M.bind, M.act]
  split
  · simp [M.pure, List.countP_cons, hr]
  · split <;> simp [M.pure, List.countP_cons, List.countP_append, hr, hf]

theorem branchCheckout_countP_zero (env : Env) (dest : Path) (b : String) (p : Item → Bool)
    (hs : p (.event (.gitBranchStart dest b)) = false)
    (hr : p (.action (.spawn "git" ["remote"] dest)) = false)
    (hf : p (.action (.spawn "git" ["fetch", "--all", "--prune"] dest)) = false)
    (hc : p (.action (.spawn "git" ["checkout", b] dest)) = false)
    (hd : p (.event (.gitBranchDone dest b)) = false) :
    ((branchCheckout env dest b).1.countP p) = 0 := by
  unfold branchCheckout
  simp only [M.bind_def]
  apply countP_bind_zero _ _ _ (by simp [M.emit, List.countP_cons, hs])
  intro _
  apply countP_bind_zero _ _ _ (branchFetchBlock_countP_zero env dest p hr hf)
  intro _
  apply countP_bind_zero _ _ _ (by simp [runCmd_trace, List.countP_cons, hc])
  intro _
  apply countP_bind_zero _ _ _ (by simp [M.emit, List.countP_cons, hd])
  intro _
  simp [M.pure]

theorem prCheckout_countP_zero (env : Env) (o : GitDupOptions) (dest : Path) (p : Item → Bool)
    (h1 : ∀ n remote, p (.event (.gitPrStart dest n remote)) = false)
    (h2 : ∀ remote spec, p (.action (.spawn "git" ["fetch", remote, spec] dest)) = false)
    (h3 : ∀ ref, p (.action (.spawn "git" ["checkout", ref] dest)) = false)
    (h4 : ∀ n remote, p (.event (.gitPrDone dest n remote)) = false) :
    ((prCheckout env o dest).1.countP p) = 0 := by
  unfold prCheckout
  cases o.pr with
  | none => simp [M.pure]
  | some n =>
    simp only [M.bind_def]
    apply countP_bind_zero _ _ _ (by simp [M.emit, List.countP_cons, h1])
    intro _
    apply countP_bind_zero _ _ _ (by simp [runCmd_trace, List.countP_cons, h2])
    intro _
    apply countP_bind_zero _ _ _ (by simp [runCmd_trace, List.countP_cons, h3])
    intro _
    apply countP_bind_zero _ _ _ (by simp [M.emit, List.countP_cons, h4])
    intro _
    simp [M.pure]

theorem checkoutStage_countP_zero (env : Env) (o : GitDupOptions) (dest : Path) (p : Item → Bool)
    (hb : ∀ b, p (.event (.gitBranchStart dest b)) = false)
    (hr : p (.action (.spawn "git" ["remote"] dest)) = false)
    (hf : p (.action (.spawn "git" ["fetch", "--all", "--prune"] dest)) = false)
    (hc : ∀ ref, p (.action (.spawn "git" ["checkout", ref] dest)) = false)
    (hd : ∀ b, p (.event (.gitBranchDone dest b)) = false)
    (h1 : ∀ n remote, p (.event (.gitPrStart dest n remote)) = false)
    (h2 : ∀ remote spec, p (.action (.spawn "git" ["fetch", remote, spec] dest)) = false)
    (h4 : ∀ n remote, p (.event (.gitPrDone dest n remote)) = false) :
    ((checkoutStage env o dest).1.countP p) = 0 := by
  unfold checkoutStage
  cases o.branch with
  | none => exact prCheckout_countP_zero env o dest p h1 h2 hc h4
  | some b =>
    by_cases hbe : b = ""
    · simp only [hbe, ne_eq, not_true_eq_false, if_false]
      exact prCheckout_countP_zero env o dest p h1 h2 hc h4
    · simp only [ne_eq, hbe, not_false_eq_true, if_true]
      exact branchCheckout_countP_zero env dest b p (hb b) hr hf (hc b) (hd b)

theorem installStage_countP_zero (env : Env) (o : GitDupOptions) (dest : Path)
    (isNode : Bool) (p : Item → Bool)
    (h1 : ∀ r, p (.event (.nodeInstallSkip dest r)) = false)
    (h2 : ∀ m, p (.event (.nodeInstallStart dest m)) = false)
    (h3 : ∀ m, p (.event (.nodeInstallDone dest m)) = false)
    (h4 : ∀ pm, detectPackageManager env dest = some pm →
      p (.action (.spawn pm.cmd pm.args dest)) = false) :
    ((installStage env o dest isNode).1.countP p) = 0 := by
  unfold installStage
  cases isNode with
  | false => simp [M.pure]
  | true =>
    by_cases hin : o.install = some false
    · simp [hin, M.emit, List.countP_cons, h1]
    · simp only [hin, if_false, if_true, reduceIte]
      cases hdet : detectPackageManager env dest with
      | none => simp [M.emit, List.countP_cons, h1]
      | some pm =>
        simp only [M.bind_def]
        apply countP_bind_zero _ _ _ (by simp [M.emit, List.countP_cons, h2])
        intro _
        apply countP_bind_zero _ _ _ (by simp [runCmd_trace, List.countP_cons, h4 pm hdet])
        intro _
        simp [M.emit, List.countP_cons, h3]

theorem validateDest_countP_zero (env : Env) (cwd dest : Path) (p : Item → Bool)
    (hm : p (.action (.mkdir dest)) = false) :
    ((validateDest env cwd dest).1.countP p) = 0 := by
  unfold validateDest
  split_ifs <;> simp [M.throw, M.pure, M.act, List.countP_cons, hm]



theorem gitdupTail_countP_zero (env : Env) (o : GitDupOptions) (dest : Path) (isNode : Bool) :
    ((M.bind (resetCleanStage env o dest) fun _ =>
      M.bind (checkoutStage env o dest) fun checkedOut =>
      M.bind (installStage env o dest isNode) fun _ =>
      M.bind (M.emit (Event.done dest)) fun _ =>
      M.pure ({ source := env.cwd, dest := dest, checkedOut := checkedOut } :
        GitDupResult)).1.countP isCopySkip) = 0 := by
  apply countP_bind_zero _ _ _
    (resetClean_countP_zero env o dest isCopySkip rfl rfl rfl rfl rfl rfl)
  intro _
  apply countP_bind_zero _ _ _
    (checkoutStage_countP_zero env o dest isCopySkip (fun _ => rfl) rfl rfl (fun _ => rfl)
      (fun _ => rfl) (fun _ _ => rfl) (fun _ _ => rfl) (fun _ _ => rfl))
  intro checkedOut
  apply countP_bind_zero _ _ _
    (installStage_countP_zero env o dest isNode isCopySkip (fun _ => rfl) (fun _ => rfl)
      (fun _ => rfl) (fun _ _ => rfl))
  intro _
  apply countP_bind_zero _ _ _ (by simp [M.emit, List.countP_cons, isCopySkip])
  intro _
  simp [M.pure]

/-- C7: once validation succeeds, the run's event stream around the copy is
exactly: the skip-notice (emitted once, if and only if the project is
package-based), then `copy:start`, the filtered copy itself, then
`copy:done`, adjacent in that order (first conjunct, bracketing); and over
the entire stream of the run — whatever happens later — the skip-notice
occurs exactly once for a package-based project and never otherwise
(second conjunct). -/
theorem copy_skip_emitted_once (env : Env) (o : GitDupOptions)
    (hgit : env.fsExists (env.cwd ++ [".git"]) = true)
    (hval : (validateDest env env.cwd (resolvedDest env o)).2 = .ok ()) :
    (∃ t₂ : Trace, (gitdup env o).1 =
      (validateDest env env.cwd (resolvedDest env o)).1 ++
      ((if env.fsExists (env.cwd ++ ["package.json"]) then
          [Item.event (.copySkipNodeModules env.cwd)] else []) ++
        [Item.event (.copyStart env.cwd (resolvedDest env o)),
         Item.action (.cp env.cwd (resolvedDest env o)
           (env.fsExists (env.cwd ++ ["package.json"]))),
         Item.event (.copyDone (resolvedDest env o))]) ++ t₂) ∧
    (gitdup env o).1.countP isCopySkip =
      (if env.fsExists (env.cwd ++ ["package.json"]) then 1 else 0) := by
  have hens : ensureGitRepo env env.cwd = ([], .ok ()) := by
    simp [ensureGitRepo, hgit, M.pure]
  have hvd : validateDest env env.cwd (resolvedDest env o)
      = ((validateDest env env.cwd (resolvedDest env o)).1, .ok ()) :=
    Prod.ext rfl hval
  constructor
  · unfold gitdup
    simp only [M.bind_def]
    rw [hens, M.bind_ok, hvd, M.bind_ok, copyStage_result, M.bind_ok]
    simp only [List.nil_append]
    rw [← List.append_assoc]
    exact ⟨_, rfl⟩
  · unfold gitdup
    simp only [M.bind_def]
    rw [hens, M.bind_ok, hvd, M.bind_ok, copyStage_result, M.bind_ok]
    simp only [List.nil_append]
    rw [List.countP_append, List.countP_append]
    rw [validateDest_countP_zero env env.cwd (resolvedDest env o) isCopySkip rfl]
    rw [gitdupTail_countP_zero]
    cases h : env.fsExists (env.cwd ++ ["package.json"]) <;>
      simp [List.countP_cons, List.countP_nil, isCopySkip]

/-- C7 witness: a concrete package-based run whose stream carries the
skip-notice exactly once. -/
theorem copy_skip_emitted_once_witness :
    envCopyW.fsExists (envCopyW.cwd ++ [".git"]) = true ∧
    (gitdup envCopyW { dest := some ["work", "proj-dup"] }).1.countP isCopySkip = 1 :=
  ⟨by decide, by
    have h := (copy_skip_emitted_once envCopyW { dest := some ["work", "proj-dup"] }
      (by decide) rfl).2
    simpa [envCopyW, envBase] using h⟩

theorem M.bind_ok_iff {α β : Type} (x : M α) (f : α → M β) (r : β) :
    (M.bind x f).2 = .ok r ↔ ∃ a, x.2 = .ok a ∧ (f a).2 = .ok r := by
  obtain ⟨t, v⟩ := x
  cases v <;> simp [M.bind]

theorem ensureGitRepo_countP_zero (env : Env) (dir : Path) (p : Item → Bool) :
    ((ensureGitRepo env dir).1.countP p) = 0 := by
  unfold ensureGitRepo
  split <;> simp [M.throw, M.pure]

theorem copyStage_countP_zero (cwd dest : Path) (isNode : Bool) (p : Item → Bool)
    (h1 : p (.event (.copySkipNodeModules cwd)) = false)
    (h2 : p (.event (.copyStart cwd dest)) = false)
    (h3 : p (.action (.cp cwd dest isNode)) = false)
    (h4 : p (.event (.copyDone dest)) = false) :
    ((copyStage cwd dest isNode).1.countP p) = 0 := by
  rw [copyStage_result]
  cases isNode <;>
    simp [List.countP_append, List.countP_cons, h1, h2, h3, h4]

theorem pmCommandFor_args (env : Env) (pm : String) (dir : Path) (c : PMChoice)
    (h : pmCommandFor env pm dir = some c) :
    c.args = ["install"] ∨ c.args = ["install", "--frozen-lockfile"] ∨ c.args = ["ci"] := by
  unfold pmCommandFor at h
  split_ifs at h <;> simp_all <;> subst h <;> simp

theorem detectByLock_args (env : Env) (dir : Path) (c : PMChoice) :
    ∀ cands, detectByLock env dir cands = some c →
      c.args = ["install"] ∨ c.args = ["install", "--frozen-lockfile"] ∨ c.args = ["ci"] := by
  intro cands
  induction cands with
  | nil => exact fun h => pmCommandFor_args env "npm" dir c h
  | cons hd rest ih =>
    obtain ⟨check, pm⟩ := hd
    intro h
    unfold detectByLock at h
    split_ifs at h
    · cases hf : pmCommandFor env pm dir with
      | none => rw [hf] at h; exact ih h
      | some c' =>
        rw [hf] at h
        simp at h
        subst h
        exact pmCommandFor_args env pm dir c' hf
    · exact ih h

theorem detectPackageManager_args (env : Env) (dir : Path) (c : PMChoice)
    (h : detectPackageManager env dir = some c) :
    c.args = ["install"] ∨ c.args = ["install", "--frozen-lockfile"] ∨ c.args = ["ci"] := by
  unfold detectPackageManager at h
  cases hf : env.pkgManagerField dir with
  | none =>
    rw [hf] at h
    simp at h
    exact detectByLock_args env dir c lockCandidates h
  | some s =>
    rw [hf] at h
    by_cases hs : s = ""
    · simp [hs] at h
      exact detectByLock_args env dir c lockCandidates h
    · simp only [hs, ne_eq, not_false_eq_true, if_true] at h
      cases hc : pmCommandFor env (pmFieldName s) dir with
      | none =>
        rw [hc] at h
        simp at h
        exact detectByLock_args env dir c lockCandidates h
      | some c' =>
        rw [hc] at h
        simp at h
        subst h
        exact pmCommandFor_args env (pmFieldName s) dir c' hc

theorem detect_args_not_prFetch (env : Env) (dir : Path) (c : PMChoice)
    (h : detectPackageManager env dir = some c) : prFetchArgs c.args = false := by
  rcases detectPackageManager_args env dir c h with ha | ha | ha <;> rw [ha] <;> rfl

theorem checkoutStage_branch (env : Env) (o : GitDupOptions) (dest : Path) (b : String)
    (hb : o.branch = some b) (hbne : b ≠ "") :
    checkoutStage env o dest = branchCheckout env dest b := by
  unfold checkoutStage
  rw [hb]
  simp [hbne]

theorem branchCheckout_ok (env : Env) (dest : Path) (b : String) (co : Option String)
    (h : (branchCheckout env dest b).2 = .ok co) : co = some b := by
  unfold branchCheckout at h
  simp only [M.bind_def] at h
  rw [M.bind_ok_iff] at h
  obtain ⟨_, _, h⟩ := h
  rw [M.bind_ok_iff] at h
  obtain ⟨_, _, h⟩ := h
  rw [M.bind_ok_iff] at h
  obtain ⟨_, _, h⟩ := h
  rw [M.bind_ok_iff] at h
  obtain ⟨_, _, h⟩ := h
  simp [M.pure] at h
  exact h.symm

/-- C4: when both a branch and a PR number are supplied (the branch being a
real, nonempty name), the PR option is never consulted: the whole run is
identical to the run with the PR option removed (first conjunct — in
particular no rejection of the conflicting combination occurs), the run's
trace contains no PR progress event and no PR-refspec fetch (second
conjunct), and a successful run reports the branch as what was checked out
(third conjunct). -/
theorem branch_wins_over_pr (env : Env) (o : GitDupOptions) (b : String)
    (hb : o.branch = some b) (hbne : b ≠ "") :
    gitdup env o = gitdup env { o with pr := none } ∧
    (gitdup env o).1.countP isPrItem = 0 ∧
    (∀ res, (gitdup env o).2 = .ok res → res.checkedOut = some b) := by
  have hb' : ({ o with pr := none } : GitDupOptions).branch = some b := by simpa using hb
  refine ⟨?_, ?_, ?_⟩
  · unfold gitdup
    simp only [M.bind_def]
    simp only [checkoutStage_branch env o _ b hb hbne,
      checkoutStage_branch env { o with pr := none } _ b hb' hbne]
    rfl
  · unfold gitdup
    simp only [M.bind_def]
    apply countP_bind_zero _ _ _ (ensureGitRepo_countP_zero env env.cwd isPrItem)
    intro _
    apply countP_bind_zero _ _ _
      (validateDest_countP_zero env env.cwd (resolvedDest env o) isPrItem rfl)
    intro _
    apply countP_bind_zero _ _ _
      (copyStage_countP_zero env.cwd (resolvedDest env o)
        (env.fsExists (env.cwd ++ ["package.json"])) isPrItem rfl rfl rfl rfl)
    intro _
    apply countP_bind_zero _ _ _
      (resetClean_countP_zero env o (resolvedDest env o) isPrItem rfl rfl rfl rfl rfl rfl)
    intro _
    apply countP_bind_zero _ _ _ (by
      rw [checkoutStage_branch env o (resolvedDest env o) b hb hbne]
      exact branchCheckout_countP_zero env (resolvedDest env o) b isPrItem rfl rfl rfl rfl rfl)
    intro checkedOut
    apply countP_bind_zero _ _ _
      (installStage_countP_zero env o (resolvedDest env o)
        (env.fsExists (env.cwd ++ ["package.json"])) isPrItem (fun _ => rfl) (fun _ => rfl)
        (fun _ => rfl) (fun pm h => detect_args_not_prFetch env (resolvedDest env o) pm h))
    intro _
    apply countP_bind_zero _ _ _ (by simp [M.emit, List.countP_cons, isPrItem])
    intro _
    simp [M.pure]
  · intro res h
    unfold gitdup at h
    simp only [M.bind_def] at h
    simp only [checkoutStage_branch env o _ b hb hbne] at h
    rw [M.bind_ok_iff] at h
    obtain ⟨_, _, h⟩ := h
    rw [M.bind_ok_iff] at h
    obtain ⟨_, _, h⟩ := h
    rw [M.bind_ok_iff] at h
    obtain ⟨_, _, h⟩ := h
    rw [M.bind_ok_iff] at h
    obtain ⟨_, _, h⟩ := h
    rw [M.bind_ok_iff] at h
    obtain ⟨co, hco, h⟩ := h
    have hcob := branchCheckout_ok env (resolvedDest env o) b co hco
    rw [M.bind_ok_iff] at h
    obtain ⟨_, _, h⟩ := h
    rw [M.bind_ok_iff] at h
    obtain ⟨_, _, h⟩ := h
    simp [M.pure] at h
    rw [← h, hcob]

/-- C4 witness: branch `feat` plus PR 7 behaves exactly like branch `feat`
alone, with no PR trace item. -/
theorem branch_wins_over_pr_witness :
    gitdup envBase { branch := some "feat", pr := some 7 } =
      gitdup envBase { branch := some "feat", pr := none } ∧
    (gitdup envBase { branch := some "feat", pr := some 7 }).1.countP isPrItem = 0 :=
  ⟨(branch_wins_over_pr envBase { branch := some "feat", pr := some 7 } "feat"
      rfl (by decide)).1,
   (branch_wins_over_pr envBase { branch := some "feat", pr := some 7 } "feat"
      rfl (by decide)).2.1⟩

theorem checkoutStage_pr (env : Env) (o : GitDupOptions) (dest : Path)
    (hb : o.branch = none) : checkoutStage env o dest = prCheckout env o dest := by
  unfold checkoutStage
  rw [hb]

theorem prCheckout_ok (env : Env) (o : GitDupOptions) (dest : Path) (n : Nat)
    (co : Option String) (hpr : o.pr = some n)
    (h : (prCheckout env o dest).2 = .ok co) : co = some (prRef n) := by
  unfold prCheckout at h
  rw [hpr] at h
  simp only [M.bind_def] at h
  rw [M.bind_ok_iff] at h
  obtain ⟨_, _, h⟩ := h
  rw [M.bind_ok_iff] at h
  obtain ⟨_, _, h⟩ := h
  rw [M.bind_ok_iff] at h
  obtain ⟨_, _, h⟩ := h
  rw [M.bind_ok_iff] at h
  obtain ⟨_, _, h⟩ := h
  simp [M.pure] at h
  exact h.symm

/-- C9: with a PR number `n` and no branch, the reconciler emits the PR
start event, spawns `git fetch <remote> pull/<n>/head:pr-<n>` (the remote
defaulting to `origin` when none is specified — fourth conjunct), then
spawns `git checkout pr-<n>`, emits the PR done event, and returns
`pr-<n>` as the checked-out identifier (fifth conjunct spells the name
out; sixth conjunct: a successful whole run reports it); a failing fetch
stops before the checkout and rejects, and a failing checkout rejects
(second and third conjuncts: fatal failures). -/
theorem pr_checkout_behaviour (env : Env) (o : GitDupOptions) (dest : Path) (n : Nat)
    (hb : o.branch = none) (hpr : o.pr = some n) :
    (env.runExit "git" ["fetch", remoteOf o, s!"pull/{n}/head:{prRef n}"] dest = 0 →
      env.runExit "git" ["checkout", prRef n] dest = 0 →
      checkoutStage env o dest =
        ([.event (.gitPrStart dest n (remoteOf o)),
          .action (.spawn "git" ["fetch", remoteOf o, s!"pull/{n}/head:{prRef n}"] dest),
          .action (.spawn "git" ["checkout", prRef n] dest),
          .event (.gitPrDone dest n (remoteOf o))], .ok (some (prRef n)))) ∧
    (env.runExit "git" ["fetch", remoteOf o, s!"pull/{n}/head:{prRef n}"] dest = 0 →
      env.runExit "git" ["checkout", prRef n] dest ≠ 0 →
      checkoutStage env o dest =
        ([.event (.gitPrStart dest n (remoteOf o)),
          .action (.spawn "git" ["fetch", remoteOf o, s!"pull/{n}/head:{prRef n}"] dest),
          .action (.spawn "git" ["checkout", prRef n] dest)],
         .error ("Command failed: " ++ "git" ++ " " ++
           String.intercalate " " ["checkout", prRef n] ++ "\n" ++
           env.runOutput "git" ["checkout", prRef n] dest))) ∧
    (env.runExit "git" ["fetch", remoteOf o, s!"pull/{n}/head:{prRef n}"] dest ≠ 0 →
      checkoutStage env o dest =
        ([.event (.gitPrStart dest n (remoteOf o)),
          .action (.spawn "git" ["fetch", remoteOf o, s!"pull/{n}/head:{prRef n}"] dest)],
         .error ("Command failed: " ++ "git" ++ " " ++
           String.intercalate " " ["fetch", remoteOf o, s!"pull/{n}/head:{prRef n}"] ++ "\n" ++
           env.runOutput "git" ["fetch", remoteOf o, s!"pull/{n}/head:{prRef n}"] dest))) ∧
    (o.remote = none → remoteOf o = "origin") ∧
    prRef n = "pr-" ++ toString n ∧
    (∀ res, (gitdup env o).2 = .ok res → res.checkedOut = some (prRef n)) := by
  refine ⟨?_, ?_, ?_, ?_, ?_, ?_⟩
  · intro hf hc
    rw [checkoutStage_pr env o dest hb]
    unfold prCheckout
    rw [hpr]
    simp [runCmd, hf, hc, M.bind, M.emit, M.act, M.pure]
  · intro hf hc
    rw [checkoutStage_pr env o dest hb]
    unfold prCheckout
    rw [hpr]
    simp [runCmd, hf, hc, M.bind, M.emit, M.act, M.pure, M.throw]
  · intro hf
    rw [checkoutStage_pr env o dest hb]
    unfold prCheckout
    rw [hpr]
    simp [runCmd, hf, M.bind, M.emit, M.act, M.pure, M.throw]
  · intro hr
    unfold remoteOf
    rw [hr]
  · show "pr-" ++ toString n ++ "" = "pr-" ++ toString n
    exact String.append_empty _
  · intro res h
    unfold gitdup at h
    simp only [M.bind_def] at h
    simp only [checkoutStage_pr env o _ hb] at h
    rw [M.bind_ok_iff] at h
    obtain ⟨_, _, h⟩ := h
    rw [M.bind_ok_iff] at h
    obtain ⟨_, _, h⟩ := h
    rw [M.bind_ok_iff] at h
    obtain ⟨_, _, h⟩ := h
    rw [M.bind_ok_iff] at h
    obtain ⟨_, _, h⟩ := h
    rw [M.bind_ok_iff] at h
    obtain ⟨co, hco, h⟩ := h
    have hcop := prCheckout_ok env o (resolvedDest env o) n co hpr hco
    rw [M.bind_ok_iff] at h
    obtain ⟨_, _, h⟩ := h
    rw [M.bind_ok_iff] at h
    obtain ⟨_, _, h⟩ := h
    simp [M.pure] at h
    rw [← h, hcop]

/-- C9 witness: PR 7 with no remote option checks out `pr-7`, fetched from
`origin`. -/
theorem pr_checkout_behaviour_witness :
    (checkoutStage envBase { pr := some 7 } ["work", "proj-dup"]).2 = .ok (some "pr-7") ∧
    remoteOf ({ pr := some 7 } : GitDupOptions) = "origin" :=
  ⟨by
    rw [(pr_checkout_behaviour envBase { pr := some 7 } ["work", "proj-dup"] 7
      rfl rfl).1 rfl rfl]
    rfl,
   (pr_checkout_behaviour envBase { pr := some 7 } ["work", "proj-dup"] 7
      rfl rfl).2.2.2.1 rfl⟩

/-- C3 amended, witness: two timestamps in the same minute (seconds 56 and
57) give equal stamps. -/
theorem defaultDest_probe_order_and_minute_stamp_witness :
    stampOf ("2026" ++ "-" ++ "10" ++ "-" ++ "12" ++ "T" ++ "08" ++ ":" ++ "34" ++ ":56.000Z") =
      stampOf ("2026" ++ "-" ++ "10" ++ "-" ++ "12" ++ "T" ++ "08" ++ ":" ++ "34" ++ ":57.999Z") :=
  (defaultDest_probe_order_and_minute_stamp envBase ["work", "proj"]).2.1
    "2026" "10" "12" "08" "34" ":56.000Z" ":57.999Z"
    (by decide) (by decide) (by decide) (by decide) (by decide)
    (by decide) (by decide) (by decide) (by decide) (by decide)

end Gitdup
